import Mathlib

/-!
Verification development for the agent-forge knowledge pipeline.

This file gives a shallow embedding of the server-side core of the
repository (document ingestion, embedding-based retrieval, model-output
parsing, tool planning/execution gating) and proves or refutes the frozen
claims about it.

Modelling conventions:

* JavaScript numbers are idealised as exact arithmetic.  The similarity
  value computed by `calculateCosineSimilarity` in `src/server/storage.ts`
  is the real number `dot / (sqrt normA * sqrt normB)`, which is
  irrational in general.  To keep the pipeline executable we represent a
  similarity value `x` by its image under the strictly monotone map
  `g x = sign x * x ^ 2` (`signedSq` below), which is a rational number
  `sign dot * dot ^ 2 / (normA * normB)`.  All comparisons performed by
  the source (ordering during sort, the `> 0.3` threshold, the `!== -1`
  sentinel test) are reflected exactly through `g`:
  `g 0.3 = 9/100` and `g (-1) = -1`.  The lemmas `signedSq_strictMono`,
  `cosineValue_le_iff`, `cosineValue_le_threshold_iff`,
  `cosineValue_lt_threshold_iff` and `cosineValue_eq_negOne_iff` prove
  this adequacy against the literal real-valued translation
  `cosineValue`.
* Stored documents are modelled by the outcome of deserialising their
  embedding column: `none` stands for a string on which `JSON.parse`
  throws or that does not hold an array, `some v` for a successfully
  parsed numeric array.
* Thrown exceptions are modelled with `Except`; the `try/catch` wrapping
  `findRelevantKnowledge` becomes a `match` on the propagated error.
* The WHATWG `URL` class used by the GET branches of the tool call sites
  is an external primitive of the host runtime (like `fetch` and the
  model API).  It enters the embedding as a function parameter
  (`UrlClass`): `Except.ok` carries the serialized URL the source would
  pass to the SSRF gate and `fetch`, `Except.error` the thrown
  `TypeError` for an endpoint that does not parse.  The repository-side
  parts of the construction — base selection via `url.startsWith("http")`
  and the parameter stringification — are modelled from the source
  (`toolGetUrl`, `execParamPairs`, `chatParamPairs`).
* `Array.prototype.sort` with comparator `(a, b) => b.similarity - a.similarity`
  is a stable descending sort; it is modelled by `List.mergeSort` (stable)
  with the Boolean relation `keyGE`, which holds of `a b` exactly when the
  comparator would keep `a` before `b` (`b.similarity ≤ a.similarity`).
-/

/-- Right-fold string join mirroring JavaScript `Array.prototype.join(sep)`. -/
def joinSep (sep : String) : List String → String
  | [] => ""
  | [a] => a
  | a :: b :: rest => a ++ sep ++ joinSep sep (b :: rest)

/-- List map with exception propagation: mirrors a JavaScript `Array.map`
whose callback may throw, aborting the whole map at the first offender. -/
def mapExcept {α β ε : Type} (f : α → Except ε β) : List α → Except ε (List β)
  | [] => .ok []
  | a :: as =>
    match f a with
    | .error e => .error e
    | .ok b =>
      match mapExcept f as with
      | .error e => .error e
      | .ok bs => .ok (b :: bs)

/-- Dot product loop of `calculateCosineSimilarity` (`dotProduct += a[i] * b[i]`). -/
def dotQ (a b : List ℚ) : ℚ := (List.zipWith (fun x y => x * y) a b).sum

/-- Squared-norm accumulator of `calculateCosineSimilarity` (`normA += a[i] * a[i]`). -/
def sqNorm (a : List ℚ) : ℚ := (a.map (fun x => x * x)).sum

/-- Rational representative of the real similarity value `d / sqrt m`:
its image `sign (d / sqrt m) * (d / sqrt m) ^ 2 = sign d * d ^ 2 / m` under the
strictly monotone `signedSq`.  For `m = 0` rational division gives `0`, matching
`signedSq` of Lean's real `d / 0 = 0` (the JavaScript `NaN` corner for zero-norm
vectors is implementation-defined in `Array.sort`; the claims below assume
nonzero norms, see the hypotheses of the main theorems). -/
def simKey (d m : ℚ) : ℚ := if d < 0 then -(d ^ 2 / m) else d ^ 2 / m

/-- The similarity key assigned by `calculateCosineSimilarity q v` when the
length guard passes. -/
def simKeyOf (a b : List ℚ) : ℚ := simKey (dotQ a b) (sqNorm a * sqNorm b)

/-- Embedding of `calculateCosineSimilarity` from `src/server/storage.ts`:
throws when the vectors have different lengths, otherwise returns (the rational
key of) `dotProduct / (Math.sqrt normA * Math.sqrt normB)`. -/
def calculateCosineSimilarity (a b : List ℚ) : Except String ℚ :=
  if a.length ≠ b.length then .error ("Vectors must have the same length")
  else .ok (simKeyOf a b)

/-- Literal real-valued translation of the similarity expression
`dotProduct / (Math.sqrt(normA) * Math.sqrt(normB))`; used in claim
statements to speak about the actual cosine similarity. -/
noncomputable def cosineValue (a b : List ℚ) : ℝ :=
  ((dotQ a b : ℚ) : ℝ) / (Real.sqrt ((sqNorm a : ℚ) : ℝ) * Real.sqrt ((sqNorm b : ℚ) : ℝ))

/-- Sign-preserving square `g x = sign x * x ^ 2`, the strictly monotone map
through which similarity values are represented by rationals. -/
noncomputable def signedSq (x : ℝ) : ℝ := if x < 0 then -(x ^ 2) else x ^ 2

/-- A stored knowledge document as seen by the retriever: its content and the
outcome of `JSON.parse` on its serialized embedding column (`none` models a
parse failure or a non-array value). -/
structure KDoc where
  content : String
  embedding : Option (List ℚ)
deriving DecidableEq

/-- Per-document similarity computation inside `findRelevantKnowledge`:
parse failures and empty arrays get the sentinel `-1`, otherwise the cosine
similarity with the query is computed (and may throw on a length mismatch). -/
def simOfDoc (queryEmbedding : List ℚ) (doc : KDoc) : Except String (String × ℚ) :=
  match doc.embedding with
  | none => .ok (doc.content, -1)
  | some docEmbedding =>
    if docEmbedding.length = 0 then .ok (doc.content, -1)
    else (calculateCosineSimilarity queryEmbedding docEmbedding).map (fun s => (doc.content, s))

/-- Boolean relation under which `List.mergeSort` reproduces the stable
descending sort `similarities.sort((a, b) => b.similarity - a.similarity)`:
`a` may stay before `b` exactly when the comparator result `b.2 - a.2` is
not positive. -/
def keyGE (a b : String × ℚ) : Bool := decide (b.2 ≤ a.2)

/-- Embedding of `findRelevantKnowledge` from `src/server/storage.ts`.
The query embedding is the result of the external embedding call
`generateEmbedding(query)`; the surrounding `try/catch` that turns any
thrown error into the empty context is the `match` on `mapExcept`. -/
def findRelevantKnowledge (queryEmbedding : List ℚ) (documents : List KDoc) : String :=
  if documents.length = 0 then ""
  else
    match mapExcept (simOfDoc queryEmbedding) documents with
    | .error _ => ""
    | .ok mapped =>
      let similarities := mapped.filter (fun x => decide (x.2 ≠ -1))
      if similarities.length = 0 then ""
      else
        let sorted := similarities.mergeSort keyGE
        let top := sorted.take 3
        let relevantDocs := (top.filter (fun d => decide (d.2 > 9 / 100))).map (fun d => d.1)
        if relevantDocs.length > 0 then joinSep ("\n\n") relevantDocs
        else joinSep ("\n\n") (top.map (fun d => d.1))

/-- The document list a chat turn feeds to the retriever
(`knowledgeDocuments.filter(doc => doc.processed && doc.embedding)` in
`src/server/routes.ts`). -/
structure StoredDoc where
  content : String
  embedding : Option (List ℚ)
  processed : Bool
deriving DecidableEq

/-- Retrieval candidate filter of the chat handlers: only documents with
`processed` set and a non-null embedding column take part in retrieval. -/
def processedDocs (docs : List StoredDoc) : List KDoc :=
  (docs.filter (fun d => d.processed && d.embedding.isSome)).map
    (fun d => { content := d.content, embedding := d.embedding })

/-- A candidate set all of whose stored embeddings deserialize successfully:
each entry is a content string together with its parsed embedding vector. -/
def entriesDocs (entries : List (String × List ℚ)) : List KDoc :=
  entries.map (fun e => { content := e.1, embedding := some e.2 })

/-- The content/similarity pairs `findRelevantKnowledge` builds for such a
candidate set (before the sentinel filter). -/
def entriesKeys (q : List ℚ) (entries : List (String × List ℚ)) : List (String × ℚ) :=
  entries.map (fun e => (e.1, simKeyOf q e.2))

/-- The pairs surviving the sentinel filter `x.similarity !== -1`. -/
def keptKeys (q : List ℚ) (entries : List (String × List ℚ)) : List (String × ℚ) :=
  (entriesKeys q entries).filter (fun x => decide (x.2 ≠ -1))

/-- The contents of the top three kept candidates in descending similarity
order: what the fallback branch of `findRelevantKnowledge` joins. -/
def rankedContents (q : List ℚ) (entries : List (String × List ℚ)) : List String :=
  (((keptKeys q entries).mergeSort keyGE).take 3).map (fun d => d.1)

/-- The contents of those of the top three kept candidates whose similarity
passes the `> 0.3` threshold (threshold expressed through the rational key:
`signedSq 0.3 = 9/100`), in ranked order. -/
def passingContents (q : List ℚ) (entries : List (String × List ℚ)) : List String :=
  ((((keptKeys q entries).mergeSort keyGE).take 3).filter
      (fun d => decide (d.2 > 9 / 100))).map (fun d => d.1)

/-- Same as `passingContents` but ranking all candidates (no sentinel filter):
the ranking described by the specification, meaningful when no candidate
carries the sentinel value. -/
def passingAllContents (q : List ℚ) (entries : List (String × List ℚ)) : List String :=
  ((((entriesKeys q entries).mergeSort keyGE).take 3).filter
      (fun d => decide (d.2 > 9 / 100))).map (fun d => d.1)

/-- ASCII letter test, the `[a-zA-Z]` class of the fence regex. -/
def isAsciiLetter (c : Char) : Bool :=
  (('a' ≤ c && c ≤ 'z') || ('A' ≤ c && c ≤ 'Z'))

/-- Backtick test (the character is written by code point to keep source
hygiene simple). -/
def isTick (c : Char) : Bool := c.toNat == 96

/-- Splits the input at the first occurrence of three consecutive backticks,
returning the part before and the part after the triple. -/
def splitAtFence : List Char → Option (List Char × List Char)
  | [] => none
  | c :: rest =>
    if isTick c then
      match rest with
      | c2 :: c3 :: rest2 =>
        if isTick c2 && isTick c3 then some ([], rest2)
        else (splitAtFence rest).map (fun p => (c :: p.1, p.2))
      | _ => (splitAtFence rest).map (fun p => (c :: p.1, p.2))
    else (splitAtFence rest).map (fun p => (c :: p.1, p.2))

/-- After an opening triple backtick: consume `[a-zA-Z]*`, require a newline,
then return the (lazy) body up to the next closing triple backtick together
with the remainder after it.  `none` means the fence regex fails to match at
this opening position. -/
def fenceMatch (cs : List Char) : Option (List Char × List Char) :=
  match cs.dropWhile isAsciiLetter with
  | '\n' :: rest2 => splitAtFence rest2
  | _ => none

/-- One pass of the global replacement
`raw.replace(/```[a-zA-Z]*\n([\s\S]*?)```/g, "$1")`: scan left to right; at
each position where a fenced block matches, emit its body and continue after
the block; otherwise emit the character and move one position forward (as the
regex engine does on a failed match attempt). -/
def stripFencesAux : Nat → List Char → List Char
  | 0, cs => cs
  | fuel + 1, cs =>
    match cs with
    | [] => []
    | c :: rest =>
      if isTick c then
        match rest with
        | c2 :: c3 :: rest2 =>
          if isTick c2 && isTick c3 then
            match fenceMatch rest2 with
            | some (body, after) => body ++ stripFencesAux fuel after
            | none => c :: stripFencesAux fuel rest
          else c :: stripFencesAux fuel rest
        | _ => c :: stripFencesAux fuel rest
      else c :: stripFencesAux fuel rest

/-- Global fence-stripping replacement used by the summary and classification
recovery parsers. -/
def stripFences (s : String) : String := ⟨stripFencesAux s.data.length s.data⟩

/-- Whitespace-run collapsing `replace(/\s+/g, " ")` (the ASCII core of the
JavaScript `\s` class; the inputs of the claims are ASCII). -/
def collapseWsAux : Nat → List Char → List Char
  | 0, cs => cs
  | _ + 1, [] => []
  | fuel + 1, c :: rest =>
    if c.isWhitespace then ' ' :: collapseWsAux fuel (rest.dropWhile Char.isWhitespace)
    else c :: collapseWsAux fuel rest

def collapseWs (s : String) : String := ⟨collapseWsAux s.data.length s.data⟩

/-- Collects characters up to and including the first closing brace. -/
def spanToBrace : List Char → Option (List Char)
  | [] => none
  | c :: rest => if c = '}' then some [c] else (spanToBrace rest).map (fun l => c :: l)

/-- The lazy first-brace-span regex `/\{[\s\S]*?\}/`: from the first opening
brace to the first closing brace after it. -/
def firstBraceSpan (s : String) : Option String :=
  match s.data.dropWhile (fun c => !(c == '{')) with
  | [] => none
  | c :: rest => (spanToBrace rest).map (fun body => ⟨c :: body⟩)

/-- The greedy brace-span regex `/\{[\s\S]*\}/` used on the Tool Planner's
raw output: from the first opening brace to the last closing brace. -/
def greedyBraceSpan (s : String) : Option String :=
  match s.data.dropWhile (fun c => !(c == '{')) with
  | [] => none
  | c :: rest =>
    match (rest.reverse.dropWhile (fun x => !(x == '}'))).reverse with
    | [] => none
    | body => some ⟨c :: body⟩

/-- JSON values as produced by `JSON.parse`.  Numbers are validated against
the JSON grammar but kept as their lexeme: no claim inspects a numeric
value. -/
inductive Json where
  | null
  | bool (b : Bool)
  | num (lexeme : String)
  | str (s : String)
  | arr (elems : List Json)
  | obj (fields : List (String × Json))

/-- JSON insignificant whitespace. -/
def jsonWs (c : Char) : Bool := c = ' ' || c = '\t' || c = '\n' || c = '\r'

def skipWs (cs : List Char) : List Char := cs.dropWhile jsonWs

def hexVal (c : Char) : Option Nat :=
  if '0' ≤ c && c ≤ '9' then some (c.toNat - 48)
  else if 'a' ≤ c && c ≤ 'f' then some (c.toNat - 87)
  else if 'A' ≤ c && c ≤ 'F' then some (c.toNat - 55)
  else none

/-- JSON string body parser (the opening quote already consumed): handles the
escape sequences of the JSON grammar and rejects raw control characters. -/
def parseStringBody : List Char → Option (List Char × List Char)
  | [] => none
  | c :: rest =>
    if c = '"' then some ([], rest)
    else if c = '\\' then
      match rest with
      | [] => none
      | e :: rest2 =>
        if e = '"' || e = '\\' || e = '/' then
          (parseStringBody rest2).map (fun p => (e :: p.1, p.2))
        else if e = 'b' then (parseStringBody rest2).map (fun p => (Char.ofNat 8 :: p.1, p.2))
        else if e = 'f' then (parseStringBody rest2).map (fun p => (Char.ofNat 12 :: p.1, p.2))
        else if e = 'n' then (parseStringBody rest2).map (fun p => ('\n' :: p.1, p.2))
        else if e = 'r' then (parseStringBody rest2).map (fun p => ('\r' :: p.1, p.2))
        else if e = 't' then (parseStringBody rest2).map (fun p => ('\t' :: p.1, p.2))
        else if e = 'u' then
          match rest2 with
          | h1 :: h2 :: h3 :: h4 :: rest3 =>
            match hexVal h1, hexVal h2, hexVal h3, hexVal h4 with
            | some a, some b, some cc, some dd =>
              (parseStringBody rest3).map
                (fun p => (Char.ofNat (((a * 16 + b) * 16 + cc) * 16 + dd) :: p.1, p.2))
            | _, _, _, _ => none
          | _ => none
        else none
    else if c.toNat < 32 then none
    else (parseStringBody rest).map (fun p => (c :: p.1, p.2))

def digitSpan (cs : List Char) : List Char × List Char :=
  (cs.takeWhile Char.isDigit, cs.dropWhile Char.isDigit)

/-- Exponent part of the JSON number grammar. -/
def parseExpPart (acc : List Char) (cs : List Char) : Option (List Char × List Char) :=
  match cs with
  | c :: r =>
    if c = 'e' || c = 'E' then
      let signAndRest :=
        match r with
        | s :: r3 => if s = '+' || s = '-' then ([s], r3) else (([] : List Char), r)
        | [] => (([] : List Char), r)
      let ds := digitSpan signAndRest.2
      if ds.1.isEmpty then none else some (acc ++ c :: signAndRest.1 ++ ds.1, ds.2)
    else some (acc, cs)
  | [] => some (acc, cs)

/-- Fraction part of the JSON number grammar. -/
def parseFracPart (acc : List Char) (cs : List Char) : Option (List Char × List Char) :=
  match cs with
  | c :: r =>
    if c = '.' then
      let ds := digitSpan r
      if ds.1.isEmpty then none else parseExpPart (acc ++ c :: ds.1) ds.2
    else parseExpPart acc cs
  | [] => parseExpPart acc cs

/-- JSON number lexeme parser: `-? (0 | [1-9][0-9]*) frac? exp?`. -/
def parseNumberLex (cs : List Char) : Option (List Char × List Char) :=
  let negAndRest :=
    match cs with
    | c :: r => if c = '-' then ([c], r) else (([] : List Char), cs)
    | [] => (([] : List Char), cs)
  match negAndRest.2 with
  | [] => none
  | c :: r =>
    if c = '0' then parseFracPart (negAndRest.1 ++ [c]) r
    else if c.isDigit then
      let ds := digitSpan r
      parseFracPart (negAndRest.1 ++ c :: ds.1) ds.2
    else none

mutual

/-- Fuel-indexed JSON value parser; the fuel bounds the nesting depth and is
instantiated with the input length, which always suffices. -/
def parseVal : Nat → List Char → Option (Json × List Char)
  | 0, _ => none
  | fuel + 1, cs =>
    match skipWs cs with
    | [] => none
    | c :: rest =>
      if c = '{' then
        match skipWs rest with
        | '}' :: r => some (.obj [], r)
        | cs1 => (parseMembers fuel cs1).map (fun p => (.obj p.1, p.2))
      else if c = '[' then
        match skipWs rest with
        | ']' :: r => some (.arr [], r)
        | cs1 => (parseElems fuel cs1).map (fun p => (.arr p.1, p.2))
      else if c = '"' then
        (parseStringBody rest).map (fun p => (.str ⟨p.1⟩, p.2))
      else if c = 't' then
        match rest with
        | 'r' :: 'u' :: 'e' :: r => some (.bool true, r)
        | _ => none
      else if c = 'f' then
        match rest with
        | 'a' :: 'l' :: 's' :: 'e' :: r => some (.bool false, r)
        | _ => none
      else if c = 'n' then
        match rest with
        | 'u' :: 'l' :: 'l' :: r => some (.null, r)
        | _ => none
      else
        (parseNumberLex (c :: rest)).map (fun p => (.num ⟨p.1⟩, p.2))

/-- Array elements: `value (, value)* ]`. -/
def parseElems : Nat → List Char → Option (List Json × List Char)
  | 0, _ => none
  | fuel + 1, cs =>
    match parseVal fuel cs with
    | none => none
    | some (v, rest) =>
      match skipWs rest with
      | ',' :: r => (parseElems fuel r).map (fun p => (v :: p.1, p.2))
      | ']' :: r => some ([v], r)
      | _ => none

/-- Object members: `"key" : value (, "key" : value)* }`. -/
def parseMembers : Nat → List Char → Option (List (String × Json) × List Char)
  | 0, _ => none
  | fuel + 1, cs =>
    match skipWs cs with
    | [] => none
    | c :: rest =>
      if c = '"' then
        match parseStringBody rest with
        | none => none
        | some (key, r1) =>
          match skipWs r1 with
          | ':' :: r2 =>
            match parseVal fuel r2 with
            | none => none
            | some (v, r3) =>
              match skipWs r3 with
              | ',' :: r4 => (parseMembers fuel r4).map (fun p => ((⟨key⟩, v) :: p.1, p.2))
              | '}' :: r4 => some ([(⟨key⟩, v)], r4)
              | _ => none
          | _ => none
      else none

end

/-- Model of `JSON.parse`: parse one value and require only whitespace after
it; `none` models a thrown `SyntaxError`. -/
def jsonParse (s : String) : Option Json :=
  match parseVal (s.length + 1) s.data with
  | some (v, rest) => if (skipWs rest).isEmpty then some v else none
  | none => none

mutual

/-- Structural equality on JSON values (the strict equality the handlers use
on the string members they inspect). -/
def Json.beq : Json → Json → Bool
  | .null, .null => true
  | .bool a, .bool b => a == b
  | .num a, .num b => a == b
  | .str a, .str b => a == b
  | .arr xs, .arr ys => Json.beqList xs ys
  | .obj xs, .obj ys => Json.beqFields xs ys
  | _, _ => false

def Json.beqList : List Json → List Json → Bool
  | [], [] => true
  | x :: xs, y :: ys => Json.beq x y && Json.beqList xs ys
  | _, _ => false

def Json.beqFields : List (String × Json) → List (String × Json) → Bool
  | [], [] => true
  | (k1, v1) :: xs, (k2, v2) :: ys => k1 == k2 && Json.beq v1 v2 && Json.beqFields xs ys
  | _, _ => false

end

instance : BEq Json := ⟨Json.beq⟩

/-- Field access `obj.key` on a parse result, requiring a string value
(`typeof obj.key === "string"`); duplicate keys resolve to the last one as in
JavaScript. -/
def Json.getStr (j : Json) (key : String) : Option String :=
  match j with
  | .obj fields =>
    match fields.reverse.find? (fun kv => kv.1 == key) with
    | some (_, .str s) => some s
    | _ => none
  | _ => none

/-- Field access `obj.key` on a parse result (any value). -/
def Json.getField (j : Json) (key : String) : Option Json :=
  match j with
  | .obj fields =>
    match fields.reverse.find? (fun kv => kv.1 == key) with
    | some (_, v) => some v
    | _ => none
  | _ => none

mutual

/-- Template-literal coercion `String(v)` for parsed JSON values (numbers are
shown by their lexeme, which coincides with the JavaScript rendering for the
canonical numerals exercised by the claims). -/
def jsToDisplay : Json → String
  | .str s => s
  | .num lexeme => lexeme
  | .bool true => "true"
  | .bool false => "false"
  | .null => "null"
  | .arr xs => jsListDisplay xs
  | .obj _ => "[object Object]"

/-- Array rendering of the template-literal coercion (elements joined by
commas). -/
def jsListDisplay : List Json → String
  | [] => ""
  | [x] => jsToDisplay x
  | x :: y :: rest => jsToDisplay x ++ "," ++ jsListDisplay (y :: rest)

end


/-- JavaScript `String.prototype.trim` (the ASCII whitespace core; the
library `String.trim` is avoided because its byte-position recursion does not
reduce in the kernel). -/
def jsTrim (s : String) : String :=
  ⟨((s.data.dropWhile Char.isWhitespace).reverse.dropWhile Char.isWhitespace).reverse⟩

/-- Tier 1 of the summary recovery: parse the raw output directly and read a
string `summary` member. -/
def summaryField (s : String) : Option String :=
  (jsonParse s).bind (fun j => j.getStr "summary")

/-- Tier 2 (specification reading): strip code fences, trim, re-parse. -/
def summaryTierTwo (raw : String) : Option String :=
  summaryField (jsTrim (stripFences raw))

/-- Tier 3 (specification reading): extract the first brace-delimited span of
the fence-stripped output and re-parse. -/
def summaryTierThree (raw : String) : Option String :=
  (firstBraceSpan (jsTrim (stripFences raw))).bind summaryField

/-- Embedding of `tryParseSummary` from `src/server/storage.ts`
(`processKnowledgeDocument`): direct parse, then fence-stripped re-parse
(only attempted when stripping changed the string), then first brace span of
the fence-stripped text. -/
def tryParseSummary (raw : String) : Option String :=
  match summaryField raw with
  | some s => some s
  | none =>
    let fenceStripped := jsTrim (stripFences raw)
    match (if fenceStripped ≠ raw then summaryField fenceStripped else none) with
    | some s => some s
    | none => (firstBraceSpan fenceStripped).bind summaryField

/-- Tier 4: heuristic summary from the first 800 characters of the cleaned
raw output (`cleaned.slice(0, 800) || "No summary available"`). -/
def heuristicSummary (raw : String) : String :=
  let cleaned := jsTrim (collapseWs (stripFences raw))
  if cleaned.take 800 = "" then "No summary available" else cleaned.take 800

/-- The summary computed by `processKnowledgeDocument`:
`tryParseSummary(raw) || ""` followed by the heuristic fallback when the
result is empty. -/
def summaryOf (raw : String) : String :=
  match tryParseSummary raw with
  | some s => if s = "" then heuristicSummary raw else s
  | none => heuristicSummary raw

/-- The code-fenced model response of the claim. -/
def fencedSummaryExample : String := "```json\n\x7b\"summary\":\"x\"\x7d\n```"

/-- Embedding of `parseJson` inside `generateAgentResponse`
(`src/server/storage.ts`, classification branch): try the raw output, the
fence-stripped trim of it, and the first (lazy) brace span of the raw output,
returning the first candidate that parses to an object with string `reply`
and `category` members, as a `(category, reply)` pair. -/
def parseJson (raw : String) : Option (String × String) :=
  ([raw, jsTrim (stripFences raw)]
      ++ (match firstBraceSpan raw with | some m => [m] | none => [])).findSome?
    (fun candidate =>
      match jsonParse candidate with
      | some j =>
        match j.getStr "reply", j.getStr "category" with
        | some r, some cat => some (cat, r)
        | _, _ => none
      | none => none)

/-- The static refusal used when an `info_request` classification carries an
empty reply. -/
def insufficientReply : String :=
  "I don't have enough information to answer that from the provided knowledge."

/-- The static refusal used when the classification output cannot be parsed
at all. -/
def parseFailureReply : String :=
  "I don't have enough information to answer that from the provided knowledge. Could you share more details or upload relevant documents?"

/-- Embedding of the `generateAgentResponse` branch structure from
`src/server/storage.ts`: when the knowledge context is absent or whitespace,
a single classification call is parsed with `parseJson`; a `casual`
classification returns the trimmed reply as-is, any other category falls back
to the static refusal when the trimmed reply is empty, and a parse failure
returns the static parse-failure refusal.  With a non-empty knowledge context
the (externally produced) generation text is returned.  Only the message
content is modelled; `tokensUsed`/`responseTime` telemetry is dropped. -/
def generateAgentResponse (knowledgeContext : Option String)
    (classifierRaw : String) (modelText : String) : String :=
  if jsTrim (knowledgeContext.getD ("")) = "" then
    match parseJson classifierRaw with
    | some pr =>
      if pr.1 = "casual" then jsTrim pr.2
      else if jsTrim pr.2 = "" then insufficientReply
      else jsTrim pr.2
    | none => parseFailureReply
  else modelText

/-- Embedding of `processKnowledgeDocument` (`src/server/storage.ts`): the
summary is recovered from the summariser model's raw output, then the
embedding call runs on the full content; a thrown embedding error (modelled
by `none`) is re-thrown and aborts the whole ingestion, while a successful
call returns the summary together with the (possibly empty) vector. -/
def processKnowledgeDocument (rawSummaryText : String)
    (embedOutcome : Option (List ℚ)) : Except String (String × List ℚ) :=
  let summary := summaryOf rawSummaryText
  match embedOutcome with
  | none => .error ("Failed to process knowledge document")
  | some embedding => .ok (summary, embedding)

/-- Outcome of the knowledge upload handler after successful normalization:
either the request is rejected with an HTTP status and nothing persisted, or
a document row is persisted and returned with status 201. -/
inductive UploadOutcome where
  | rejected (status : Nat)
  | created (status : Nat) (doc : StoredDoc)
deriving DecidableEq

/-- Embedding of the post-normalization part of the knowledge upload handler
(`src/server/routes.ts`; the URL-ingestion handler persists identically):
`processKnowledgeDocument` throwing is caught by the handler's `catch` and
becomes a 500 with nothing persisted; otherwise the document row is created
and then updated with `processed := true` and the serialized vector when the
embedding is a non-empty array, or left `processed := false` without an
embedding when it is empty. -/
def uploadKnowledge (content : String) (rawSummaryText : String)
    (embedOutcome : Option (List ℚ)) : UploadOutcome :=
  match processKnowledgeDocument rawSummaryText embedOutcome with
  | .error _ => .rejected 500
  | .ok (_, embedding) =>
    if embedding.length > 0 then .created 201 ⟨content, some embedding, true⟩
    else .created 201 ⟨content, none, false⟩

/-- HTTP tool definition (`tools` table fields used by the handlers). -/
structure ToolParam where
  name : String
  required : Bool
  description : Option String
deriving DecidableEq

structure Tool where
  id : String
  name : String
  method : String
  endpoint : String
  parameters : List ToolParam
  headers : List (String × String)
deriving DecidableEq

/-- ASCII lower-casing (`String.prototype.toLowerCase` restricted to the
ASCII range, which covers the URLs of the claims). -/
def lowerAscii (s : String) : String := ⟨s.data.map Char.toLower⟩

/-- ASCII upper-casing (`tool.method.toUpperCase()`). -/
def upperAscii (s : String) : String := ⟨s.data.map Char.toUpper⟩

def listPrefixB : List Char → List Char → Bool
  | [], _ => true
  | _ :: _, [] => false
  | p :: ps, c :: cs => p == c && listPrefixB ps cs

/-- Textual prefix test. -/
def strStartsWith (s p : String) : Bool := listPrefixB p.data s.data

/-- Substring test (used to check that a clarification names a parameter). -/
def strContainsAux (sub : List Char) : List Char → Bool
  | [] => listPrefixB sub []
  | c :: rest => listPrefixB sub (c :: rest) || strContainsAux sub rest

def strContains (s sub : String) : Bool := strContainsAux sub.data s.data

/-- The SSRF guard regex `/^https?:\/\/(localhost|127\.0\.0\.1|::1)/i` of
both tool call sites: a case-insensitive textual prefix test on the URL
string. -/
def isBlockedUrl (url : String) : Bool :=
  (["http://", "https://"].any (fun sch =>
    (["localhost", "127.0.0.1", "::1"].any (fun h =>
      strStartsWith (lowerAscii url) (sch ++ h)))))

/-- The platform's WHATWG URL class, as used by the GET branches of both
tool call sites: given the endpoint string, the optional base of
`new URL(url, base)`, and the key/value pairs set through
`urlObj.searchParams.set(k, String(v))`, it yields `urlObj.toString()`.
This is behavior of the host runtime's `URL` class — an external primitive
like `fetch`, not code of this repository — so it enters the model as a
function parameter of the embedded routes.  `Except.ok s` is the serialized
URL; `Except.error e` models the `TypeError` that `new URL` throws on an
endpoint that does not parse (for example `http://::1/x`, whose unbracketed
IPv6 host is invalid).  WHATWG serialization also normalizes the URL
(lower-cases scheme and host, rewrites hosts such as `127.1` to
`127.0.0.1`), so the string the SSRF gate receives can differ from the
configured endpoint. -/
abbrev UrlClass : Type :=
  String → Option String → List (String × String) → Except String String

/-- The GET-branch URL construction shared verbatim by both call sites
(`src/unnamed/part_011` lines 584-587 and 751-763):
`new URL(url, url.startsWith("http") ? undefined : "http://localhost")`,
one `searchParams.set` per pair, then `toString()`.  The repository-side
logic — supplying the `http://localhost` base exactly when the endpoint
string does not start with `"http"` — is modeled here; the parse,
normalization and serialization (or throw) are performed by the external
`urlCls`. -/
def toolGetUrl (urlCls : UrlClass) (endpoint : String)
    (pairs : List (String × String)) : Except String String :=
  urlCls endpoint
    (if strStartsWith endpoint "http" then none else some ("http://localhost"))
    pairs

/-- The execute route's query parameters: drop `undefined`/`null` entries,
convert the rest with `String(v)` (`src/unnamed/part_011` lines 757-761). -/
def execParamPairs (params : List (String × Json)) : List (String × String) :=
  (params.filter (fun kv => !(kv.2 == Json.null))).map (fun kv => (kv.1, jsToDisplay kv.2))

/-- An outbound HTTP request the Tool Executor is about to perform: the final
URL, the method, and the JSON body fields for POST. -/
structure FetchCall where
  url : String
  method : String
  bodyParams : Option (List (String × Json))

/-- Outcome of the `/api/tools/:id/execute` handler up to the outbound call:
reject an unsupported method (400), fail with 500 when the GET URL
construction throws (the `TypeError` of `new URL` is caught by the
handler's outer `catch`, before the SSRF gate is ever consulted), reject a
blocked internal endpoint (400), or perform the call. -/
inductive ExecuteToolOutcome where
  | badMethod
  | thrown
  | blocked
  | call (c : FetchCall)

/-- Embedding of the execute-tool route (`registerRoutes` in the tool-enabled
`routes.ts`, `src/unnamed/part_011` lines 734-804), parameterized by the
platform URL class `urlCls`: for GET, build the final URL through
`toolGetUrl` (a throw is answered 500, `.thrown`); for POST, keep the
endpoint and carry the parameters as the JSON body; any other method is
answered 400 (`.badMethod`).  The SSRF gate `isBlockedUrl` then tests the
resulting URL string unless `ALLOW_INTERNAL_TOOL_CALLS` is set, and
otherwise the outbound fetch is performed. -/
def executeToolRoute (urlCls : UrlClass) (tool : Tool) (params : List (String × Json))
    (allowInternal : Bool) : ExecuteToolOutcome :=
  let method := upperAscii tool.method
  if method = "GET" then
    match toolGetUrl urlCls tool.endpoint (execParamPairs params) with
    | .error _ => .thrown
    | .ok url =>
      if isBlockedUrl url && !allowInternal then .blocked
      else .call ⟨url, method, none⟩
  else if method = "POST" then
    if isBlockedUrl tool.endpoint && !allowInternal then .blocked
    else .call ⟨tool.endpoint, method, some params⟩
  else .badMethod

/-- Result of the tool phase of the chat message handler
(`src/unnamed/part_011` lines 530-629).  `turnFailed` is the case where the
GET URL construction throws: the exception propagates to the handler's
outer `catch` and the whole chat request is answered 500. -/
inductive ChatToolPhase where
  | clarify (content : String)
  | turnFailed
  | skippedInternal (toolName : String)
  | callTool (toolName : String) (c : FetchCall)
  | noTool

/-- The outbound call a chat tool phase performs, if any. -/
def performedCall : ChatToolPhase → Option FetchCall
  | .callTool _ c => some c
  | _ => none

/-- `tools.find(t => t.id === decision.toolId)` guarded by the truthiness of
`decision.toolId` (a non-string or empty id never matches). -/
def findTool (tools : List Tool) (toolIdOpt : Option String) : Option Tool :=
  match toolIdOpt with
  | some tid => if tid = "" then none else tools.find? (fun t => t.id == tid)
  | none => none

/-- Scalar value test: `v !== null && typeof v !== "object"` on JSON
values. -/
def scalarOnly : Json → Bool
  | .str _ => true
  | .num _ => true
  | .bool _ => true
  | _ => false

/-- Defensive parameter extraction of the chat call branch: only scalar
entries of `decision.params` survive (`typeof` of arrays and `null` is
`"object"`; `Object.entries` of an array enumerates its indices). -/
def scalarParams (d : Json) : List (String × Json) :=
  match d.getField "params" with
  | some (.obj fields) => fields.filter (fun kv => scalarOnly kv.2)
  | some (.arr xs) =>
    (xs.enum.map (fun p => (toString p.1, p.2))).filter (fun kv => scalarOnly kv.2)
  | _ => []

/-- The chat call site's query parameters: every surviving scalar parameter
of the decision is set with `String(v)` (`src/unnamed/part_011` lines
585-586; the `v != null` re-check there is vacuous because `scalarParams`
already excludes null). -/
def chatParamPairs (d : Json) : List (String × String) :=
  (scalarParams d).map (fun kv => (kv.1, jsToDisplay kv.2))

/-- `Array.isArray(decision.missing) ? decision.missing : []` (raw JSON
values; only string entries can match a parameter name under `includes`). -/
def missingRawOf (d : Json) : List Json :=
  match d.getField "missing" with
  | some (.arr xs) => xs
  | _ => []

/-- The clarification message synthesised by the ask branch, naming the tool
and each missing parameter, with the parameter descriptions when the missing
names match declared parameters. -/
def clarificationOf (tool : Tool) (missingRaw : List Json) : String :=
  let paramMeta := tool.parameters.filter (fun p => missingRaw.any (fun m => m == Json.str p.name))
  "I can use the tool \"" ++ tool.name ++ "\" to help, but I still need: "
    ++ joinSep (", ") (missingRaw.map (fun m => "\"" ++ jsToDisplay m ++ "\"")) ++ "."
    ++ (if paramMeta.length ≠ 0 then
          "\n" ++ joinSep ("\n") (paramMeta.map (fun p =>
            "- " ++ p.name ++ (if p.required then " (required)" else "")
              ++ ": " ++ p.description.getD ("")))
        else "")
    ++ "\nPlease provide the missing value" ++ (if missingRaw.length > 1 then "s" else "") ++ "."

/-- The Tool Planner's output parsing at the chat call site: greedy brace
span extraction (`decisionRaw.match(/\{[\s\S]*\}/)`) followed by
`JSON.parse`, with a parse failure yielding no decision. -/
def parsedDecision (decisionRaw : String) : Option Json :=
  jsonParse ((greedyBraceSpan decisionRaw).getD decisionRaw)

/-- Embedding of the tool phase of the chat message handler, parameterized
by the platform URL class `urlCls`: on a parsed `ask` decision with a known
tool, synthesise a clarification and return it immediately (no URL
construction, no tool call, no final generation); on a parsed `call`
decision with a known tool, extract scalar parameters, build the URL
through `toolGetUrl` for GET (a throw fails the whole turn) or keep the
endpoint otherwise, and either skip internally-addressed endpoints (SSRF
gate, unless overridden) or perform the call; in every other case fall
through to the normal generation path. -/
def chatToolDecision (urlCls : UrlClass) (tools : List Tool) (decision : Option Json)
    (allowInternal : Bool) : ChatToolPhase :=
  match decision with
  | none => .noTool
  | some d =>
    let action := d.getStr "action"
    match (if action = some "ask" then findTool tools (d.getStr "toolId") else none) with
    | some tool => .clarify (clarificationOf tool (missingRawOf d))
    | none =>
      match (if action = some "call" then findTool tools (d.getStr "toolId") else none) with
      | none => .noTool
      | some tool =>
        let method := upperAscii tool.method
        match (if method = "GET" then toolGetUrl urlCls tool.endpoint (chatParamPairs d)
               else Except.ok tool.endpoint) with
        | .error _ => .turnFailed
        | .ok url =>
          if isBlockedUrl url && !allowInternal then .skippedInternal tool.name
          else .callTool tool.name
            ⟨url, method, (if method = "POST" then some (scalarParams d) else none)⟩


/-- A classification output whose reply is whitespace under a `casual`
category. -/
def casualWhitespaceExample : String := "\x7b\"category\":\"casual\",\"reply\":\"  \"\x7d"

/-- A well-formed casual classification output. -/
def casualGreetingExample : String := "\x7b\"category\":\"casual\",\"reply\":\"hello there\"\x7d"

/-- The Tool Planner ask output of the claim. -/
def askDecisionExample : String := "\x7b\"action\":\"ask\",\"toolId\":\"t1\",\"missing\":[\"city\"]\x7d"

/-- A demonstration tool with one required parameter. -/
def weatherTool : Tool :=
  ⟨"t1", "weather", "GET", "https://api.example.com/weather", [⟨"city", true, some "City name"⟩], []⟩

/-- A URL-class instance for closed evaluations on POST tools, whose URL
construction is never consulted: it returns the input unchanged. -/
def idUrlClass : UrlClass := fun url _ _ => .ok url

/-- A URL-class instance recording one concrete WHATWG evaluation:
`new URL("http://127.1/wx")` with `searchParams.set("city", "Paris")`
serializes to `http://127.0.0.1/wx?city=Paris` (IPv4 host
normalization). -/
def normalizingUrlClass : UrlClass := fun _ _ _ => .ok ("http://127.0.0.1/wx?city=Paris")

/-- A URL-class instance recording that `new URL` throws: for example
`new URL("http://::1/x")` raises `TypeError: Invalid URL` because an IPv6
host must be bracketed. -/
def throwingUrlClass : UrlClass := fun _ _ _ => .error ("Invalid URL")


/-! ### Supporting lemmas: adequacy of the rational similarity keys -/

theorem sqNorm_nonneg (a : List ℚ) : 0 ≤ sqNorm a := by
  unfold sqNorm
  apply List.sum_nonneg
  intro x hx
  obtain ⟨y, -, rfl⟩ := List.mem_map.mp hx
  exact mul_self_nonneg y

theorem signedSq_strictMono : StrictMono signedSq := by
  intro x y hxy
  unfold signedSq
  split_ifs with hx hy
  · nlinarith
  · push_neg at hy; nlinarith
  · push_neg at hx; linarith
  · push_neg at hx; nlinarith

theorem simKey_cast (d m : ℚ) (hm : 0 ≤ m) :
    ((simKey d m : ℚ) : ℝ) = signedSq ((d : ℚ) / Real.sqrt ((m : ℚ) : ℝ)) := by
  rcases eq_or_lt_of_le hm with h0 | hpos
  · unfold simKey signedSq
    rw [← h0]
    push_cast
    simp
  · have hmr : (0 : ℝ) < ((m : ℚ) : ℝ) := by exact_mod_cast hpos
    have hsq : (0 : ℝ) < Real.sqrt ((m : ℚ) : ℝ) := Real.sqrt_pos.mpr hmr
    have hsqr : (Real.sqrt ((m : ℚ) : ℝ)) ^ 2 = ((m : ℚ) : ℝ) := Real.sq_sqrt hmr.le
    unfold simKey signedSq
    by_cases hd : d < 0
    · have hdr : ((d : ℚ) : ℝ) < 0 := by exact_mod_cast hd
      have hx : ((d : ℚ) : ℝ) / Real.sqrt ((m : ℚ) : ℝ) < 0 := div_neg_of_neg_of_pos hdr hsq
      rw [if_pos hd, if_pos hx, div_pow, hsqr]
      push_cast
      ring
    · have hdr : (0 : ℝ) ≤ ((d : ℚ) : ℝ) := by
        have := not_lt.mp hd
        exact_mod_cast this
      have hx : ¬ (((d : ℚ) : ℝ) / Real.sqrt ((m : ℚ) : ℝ) < 0) :=
        not_lt.mpr (div_nonneg hdr hsq.le)
      rw [if_neg hd, if_neg hx, div_pow, hsqr]
      push_cast
      ring

theorem signedSq_cosineValue (a b : List ℚ) :
    signedSq (cosineValue a b) = ((simKeyOf a b : ℚ) : ℝ) := by
  have hcast : ((sqNorm a * sqNorm b : ℚ) : ℝ) = ((sqNorm a : ℚ) : ℝ) * ((sqNorm b : ℚ) : ℝ) := by
    push_cast
    ring
  have h := simKey_cast (dotQ a b) (sqNorm a * sqNorm b)
    (mul_nonneg (sqNorm_nonneg a) (sqNorm_nonneg b))
  rw [simKeyOf, h, hcast]
  unfold cosineValue
  rw [Real.sqrt_mul (by exact_mod_cast sqNorm_nonneg a)]

theorem cosineValue_le_iff (q v w : List ℚ) :
    cosineValue q v ≤ cosineValue q w ↔ simKeyOf q v ≤ simKeyOf q w := by
  rw [← signedSq_strictMono.le_iff_le, signedSq_cosineValue, signedSq_cosineValue]
  exact_mod_cast Iff.rfl

theorem threshold_lt_cosineValue_iff (q v : List ℚ) :
    3 / 10 < cosineValue q v ↔ 9 / 100 < simKeyOf q v := by
  have h310 : signedSq ((3 : ℝ) / 10) = 9 / 100 := by
    unfold signedSq
    rw [if_neg (by norm_num)]
    norm_num
  have hnum : ((9 : ℝ) / 100) = ((9 / 100 : ℚ) : ℝ) := by norm_num
  constructor
  · intro h
    have h2 := signedSq_strictMono.lt_iff_lt.mpr h
    rw [signedSq_cosineValue, h310, hnum, Rat.cast_lt] at h2
    exact h2
  · intro h
    have h2 : signedSq ((3 : ℝ) / 10) < signedSq (cosineValue q v) := by
      rw [signedSq_cosineValue, h310, hnum, Rat.cast_lt]
      exact h
    exact signedSq_strictMono.lt_iff_lt.mp h2

theorem cosineValue_eq_negOne_iff (q v : List ℚ) :
    cosineValue q v = -1 ↔ simKeyOf q v = -1 := by
  have hneg : signedSq (-1 : ℝ) = -1 := by
    unfold signedSq
    rw [if_pos (by norm_num)]
    norm_num
  rw [← signedSq_strictMono.injective.eq_iff, signedSq_cosineValue, hneg]
  exact_mod_cast Iff.rfl

theorem cosineValue_eq_rat_iff (q v : List ℚ) (x : ℚ) :
    cosineValue q v = ((x : ℚ) : ℝ) ↔ simKeyOf q v = simKey x 1 := by
  have hx : ((simKey x 1 : ℚ) : ℝ) = signedSq ((x : ℚ) : ℝ) := by
    rw [simKey_cast x 1 zero_le_one]
    norm_num
  rw [← signedSq_strictMono.injective.eq_iff, signedSq_cosineValue, ← hx]
  exact_mod_cast Iff.rfl

/-! ### Supporting lemmas: the retrieval pipeline -/

theorem mapExcept_error_of_mem {α β ε : Type} (f : α → Except ε β) (l : List α)
    (a : α) (ha : a ∈ l) (e : ε) (hfa : f a = .error e) :
    ∃ eo, mapExcept f l = .error eo := by
  induction l with
  | nil => cases ha
  | cons x xs ih =>
    rcases List.mem_cons.mp ha with rfl | hmem
    · exact ⟨e, by simp [mapExcept, hfa]⟩
    · cases hfx : f x with
      | error e2 => exact ⟨e2, by simp [mapExcept, hfx]⟩
      | ok b =>
        obtain ⟨eo, ho⟩ := ih hmem
        exact ⟨eo, by simp [mapExcept, hfx, ho]⟩

theorem simOfDoc_ok (q : List ℚ) (c : String) (v : List ℚ)
    (hne : v ≠ []) (hlen : v.length = q.length) :
    simOfDoc q ⟨c, some v⟩ = .ok (c, simKeyOf q v) := by
  have h1 : ¬ (v.length = 0) := by simpa [List.length_eq_zero] using hne
  have h2 : ¬ (q.length ≠ v.length) := by simp [hlen]
  simp only [simOfDoc]
  rw [if_neg h1]
  unfold calculateCosineSimilarity
  rw [if_neg h2]
  rfl

theorem entries_mapExcept (q : List ℚ) (entries : List (String × List ℚ))
    (hvalid : ∀ e ∈ entries, e.2 ≠ [] ∧ e.2.length = q.length) :
    mapExcept (simOfDoc q) (entriesDocs entries) = .ok (entriesKeys q entries) := by
  induction entries with
  | nil => rfl
  | cons e es ih =>
    obtain ⟨hne, hlen⟩ := hvalid e (by simp)
    have h1 := simOfDoc_ok q e.1 e.2 hne hlen
    have h2 := ih (fun x hx => hvalid x (by simp [hx]))
    simp [entriesDocs, entriesKeys, mapExcept, h1] at h2 ⊢
    simp [h2]

theorem keyGE_trans : ∀ (a b c : String × ℚ),
    keyGE a b = true → keyGE b c = true → keyGE a c = true := by
  intro a b c h1 h2
  unfold keyGE at h1 h2 ⊢
  simp only [decide_eq_true_eq] at h1 h2 ⊢
  exact le_trans h2 h1

theorem keyGE_total : ∀ (a b : String × ℚ), (keyGE a b || keyGE b a) = true := by
  intro a b
  unfold keyGE
  simp only [Bool.or_eq_true, decide_eq_true_eq]
  exact le_total b.2 a.2

theorem mergeSort_head_max {l : List (String × ℚ)} {h : String × ℚ} {t : List (String × ℚ)}
    (hs : l.mergeSort keyGE = h :: t) :
    h ∈ l ∧ ∀ x ∈ l, x.2 ≤ h.2 := by
  have hperm := List.mergeSort_perm l keyGE
  have hsorted := List.sorted_mergeSort keyGE_trans keyGE_total l
  rw [hs] at hperm hsorted
  have hmem : h ∈ l := hperm.mem_iff.mp (by simp)
  refine ⟨hmem, ?_⟩
  intro x hx
  have hx2 : x ∈ h :: t := hperm.mem_iff.mpr hx
  rcases List.mem_cons.mp hx2 with rfl | hxt
  · exact le_refl _
  · have hrel := (List.pairwise_cons.mp hsorted).1 x hxt
    unfold keyGE at hrel
    simpa using hrel

theorem fRK_eval (q : List ℚ) (entries : List (String × List ℚ))
    (hvalid : ∀ e ∈ entries, e.2 ≠ [] ∧ e.2.length = q.length)
    (hne : entries ≠ []) :
    findRelevantKnowledge q (entriesDocs entries) =
      if (keptKeys q entries).length = 0 then ""
      else if (passingContents q entries).length > 0 then
        joinSep ("\n\n") (passingContents q entries)
      else joinSep ("\n\n") (rankedContents q entries) := by
  have hdoclen : ¬ ((entriesDocs entries).length = 0) := by
    simpa [entriesDocs, List.length_eq_zero] using hne
  unfold findRelevantKnowledge
  rw [if_neg hdoclen, entries_mapExcept q entries hvalid]
  rfl

/-! ### Claim theorems: retrieval (C2, C3, C8, C9) -/

/-- C3: for every candidate set with valid embeddings (non-empty, the query's
dimension, nonzero norms, and no similarity equal to the sentinel `-1`, so
that no candidate is dropped by the sentinel filter), `findRelevantKnowledge`
sorts the candidates by descending cosine similarity, takes the top 3,
filters to similarity strictly above 0.3 (key threshold `9/100 = signedSq 0.3`),
and — when at least one passes — returns exactly the passing candidates'
contents in ranked order joined by blank lines. -/
theorem retrieval_ranked_threshold
    (q : List ℚ) (entries : List (String × List ℚ))
    (hvalid : ∀ e ∈ entries, e.2 ≠ [] ∧ e.2.length = q.length)
    (hnormq : sqNorm q ≠ 0) (hnorm : ∀ e ∈ entries, sqNorm e.2 ≠ 0)
    (hno1 : ∀ e ∈ entries, cosineValue q e.2 ≠ -1)
    (hpass : ∃ e ∈ entries, 3 / 10 < cosineValue q e.2) :
    findRelevantKnowledge q (entriesDocs entries) = joinSep ("\n\n") (passingAllContents q entries) := by
  obtain ⟨e0, he0, hp0⟩ := hpass
  have hentne : entries ≠ [] := by
    intro hh
    subst hh
    cases he0
  have hkeq : keptKeys q entries = entriesKeys q entries := by
    unfold keptKeys
    apply List.filter_eq_self.mpr
    intro x hx
    unfold entriesKeys at hx
    obtain ⟨e, he, rfl⟩ := List.mem_map.mp hx
    have hne1 : simKeyOf q e.2 ≠ -1 :=
      fun hcontra => hno1 e he ((cosineValue_eq_negOne_iff q e.2).mpr hcontra)
    simpa using hne1
  have hkey0 : 9 / 100 < simKeyOf q e0.2 := (threshold_lt_cosineValue_iff q e0.2).mp hp0
  have hmem0 : (e0.1, simKeyOf q e0.2) ∈ entriesKeys q entries := by
    unfold entriesKeys
    exact List.mem_map.mpr ⟨e0, he0, rfl⟩
  have hkne : (keptKeys q entries).length ≠ 0 := by
    rw [hkeq]
    intro hh
    rw [List.length_eq_zero] at hh
    rw [hh] at hmem0
    cases hmem0
  cases hms : (entriesKeys q entries).mergeSort keyGE with
  | nil =>
    have hp := List.mergeSort_perm (entriesKeys q entries) keyGE
    rw [hms] at hp
    rw [hkeq] at hkne
    exact absurd hp.length_eq.symm hkne
  | cons p0 ts =>
    obtain ⟨hpmem, hpmax⟩ := mergeSort_head_max hms
    have hp0gt : 9 / 100 < p0.2 := lt_of_lt_of_le hkey0 (hpmax _ hmem0)
    have hpassne : (passingAllContents q entries).length > 0 := by
      unfold passingAllContents
      rw [hms, show List.take 3 (p0 :: ts) = p0 :: List.take 2 ts from rfl, List.filter_cons,
        if_pos (by simpa using hp0gt)]
      simp
    have heval := fRK_eval q entries hvalid hentne
    rw [if_neg hkne] at heval
    have hpc : passingContents q entries = passingAllContents q entries := by
      unfold passingContents passingAllContents
      rw [hkeq]
    rw [hpc, if_pos hpassne] at heval
    exact heval

/-- C3, witness at the claim's own similarities `[0.9, 0.5, 0.1]` (realised
exactly by integer vectors): the first two candidates pass the threshold and
are returned in ranked order; the third is filtered out. -/
theorem retrieval_ranked_witness :
    cosineValue [(1 : ℚ), 1, 0] [(5 : ℚ), 4, 3] = 9 / 10
    ∧ cosineValue [(1 : ℚ), 1, 0] [(5 : ℚ), 0, 5] = 1 / 2
    ∧ cosineValue [(1 : ℚ), 1, 0] [(5 : ℚ), -4, 3] = 1 / 10
    ∧ findRelevantKnowledge [(1 : ℚ), 1, 0]
        (entriesDocs [(("first" : String), [(5 : ℚ), 4, 3]), (("second" : String), [(5 : ℚ), 0, 5]),
          (("third" : String), [(5 : ℚ), -4, 3])])
      = "first" ++ "\n\n" ++ "second" := by
  have hkey1 : simKeyOf [(1 : ℚ), 1, 0] [(5 : ℚ), 4, 3] = 81 / 100 := by
    norm_num [simKeyOf, simKey, dotQ, sqNorm, List.zipWith]
  have hkey2 : simKeyOf [(1 : ℚ), 1, 0] [(5 : ℚ), 0, 5] = 1 / 4 := by
    norm_num [simKeyOf, simKey, dotQ, sqNorm, List.zipWith]
  have hkey3 : simKeyOf [(1 : ℚ), 1, 0] [(5 : ℚ), -4, 3] = 1 / 100 := by
    norm_num [simKeyOf, simKey, dotQ, sqNorm, List.zipWith]
  have hcv1 : cosineValue [(1 : ℚ), 1, 0] [(5 : ℚ), 4, 3] = 9 / 10 := by
    have hx := (cosineValue_eq_rat_iff [(1 : ℚ), 1, 0] [(5 : ℚ), 4, 3] (9 / 10)).mpr
      (by rw [hkey1]; norm_num [simKey])
    rw [hx]
    norm_num
  have hcv2 : cosineValue [(1 : ℚ), 1, 0] [(5 : ℚ), 0, 5] = 1 / 2 := by
    have hx := (cosineValue_eq_rat_iff [(1 : ℚ), 1, 0] [(5 : ℚ), 0, 5] (1 / 2)).mpr
      (by rw [hkey2]; norm_num [simKey])
    rw [hx]
    norm_num
  have hcv3 : cosineValue [(1 : ℚ), 1, 0] [(5 : ℚ), -4, 3] = 1 / 10 := by
    have hx := (cosineValue_eq_rat_iff [(1 : ℚ), 1, 0] [(5 : ℚ), -4, 3] (1 / 10)).mpr
      (by rw [hkey3]; norm_num [simKey])
    rw [hx]
    norm_num
  refine ⟨hcv1, hcv2, hcv3, ?_⟩
  have main := retrieval_ranked_threshold [(1 : ℚ), 1, 0]
    [(("first" : String), [(5 : ℚ), 4, 3]), (("second" : String), [(5 : ℚ), 0, 5]),
      (("third" : String), [(5 : ℚ), -4, 3])]
    (by simp)
    (by norm_num [sqNorm])
    (by
      intro e he
      simp only [List.mem_cons, List.mem_singleton] at he
      rcases he with he | he | he | he
      · subst he; norm_num [sqNorm]
      · subst he; norm_num [sqNorm]
      · subst he; norm_num [sqNorm]
      · cases he)
    (by
      intro e he
      simp only [List.mem_cons, List.mem_singleton] at he
      rcases he with he | he | he | he
      · subst he; rw [hcv1]; norm_num
      · subst he; rw [hcv2]; norm_num
      · subst he; rw [hcv3]; norm_num
      · cases he)
    (⟨(("first" : String), [(5 : ℚ), 4, 3]), by simp, by rw [hcv1]; norm_num⟩)
  rw [main]
  have hek : entriesKeys [(1 : ℚ), 1, 0]
      [(("first" : String), [(5 : ℚ), 4, 3]), (("second" : String), [(5 : ℚ), 0, 5]),
        (("third" : String), [(5 : ℚ), -4, 3])]
      = [(("first" : String), (81 : ℚ) / 100), (("second" : String), (1 : ℚ) / 4),
         (("third" : String), (1 : ℚ) / 100)] := by
    unfold entriesKeys
    rw [show List.map (fun e => (e.1, simKeyOf [(1 : ℚ), 1, 0] e.2))
        [(("first" : String), [(5 : ℚ), 4, 3]), (("second" : String), [(5 : ℚ), 0, 5]),
          (("third" : String), [(5 : ℚ), -4, 3])]
        = [(("first" : String), simKeyOf [(1 : ℚ), 1, 0] [(5 : ℚ), 4, 3]),
           (("second" : String), simKeyOf [(1 : ℚ), 1, 0] [(5 : ℚ), 0, 5]),
           (("third" : String), simKeyOf [(1 : ℚ), 1, 0] [(5 : ℚ), -4, 3])] from rfl,
      hkey1, hkey2, hkey3]
  have hsorted : ([(("first" : String), (81 : ℚ) / 100), (("second" : String), (1 : ℚ) / 4),
      (("third" : String), (1 : ℚ) / 100)]).mergeSort keyGE
      = [(("first" : String), (81 : ℚ) / 100), (("second" : String), (1 : ℚ) / 4),
         (("third" : String), (1 : ℚ) / 100)] := by
    apply List.mergeSort_of_sorted
    norm_num [List.pairwise_cons, keyGE]
  unfold passingAllContents
  rw [hek, hsorted, show List.take 3
      [(("first" : String), (81 : ℚ) / 100), (("second" : String), (1 : ℚ) / 4),
        (("third" : String), (1 : ℚ) / 100)]
      = [(("first" : String), (81 : ℚ) / 100), (("second" : String), (1 : ℚ) / 4),
         (("third" : String), (1 : ℚ) / 100)] from rfl,
    List.filter_cons, if_pos (by norm_num), List.filter_cons, if_pos (by norm_num),
    List.filter_cons, if_neg (by norm_num), List.filter_nil]
  rfl

/-- C8: if any candidate's stored embedding deserializes to a non-empty array
whose length differs from the query embedding's length,
`calculateCosineSimilarity` throws, the exception reaches the outermost
`catch` of `findRelevantKnowledge`, and the whole retrieval returns the empty
context — every candidate is discarded, including well-formed ones. -/
theorem retrieval_empty_on_length_mismatch
    (q : List ℚ) (docs : List KDoc)
    (hbad : ∃ d ∈ docs, ∃ v, d.embedding = some v ∧ v ≠ [] ∧ v.length ≠ q.length) :
    findRelevantKnowledge q docs = "" := by
  obtain ⟨d, hd, v, hv, hvne, hvlen⟩ := hbad
  have hdne : ¬ (docs.length = 0) := by
    intro hh
    rw [List.length_eq_zero] at hh
    rw [hh] at hd
    cases hd
  have herr : simOfDoc q d = .error ("Vectors must have the same length") := by
    simp only [simOfDoc, hv]
    rw [if_neg (by simpa [List.length_eq_zero] using hvne)]
    unfold calculateCosineSimilarity
    rw [if_pos (fun hh => hvlen hh.symm)]
    rfl
  obtain ⟨eo, ho⟩ := mapExcept_error_of_mem (simOfDoc q) docs d hd _ herr
  unfold findRelevantKnowledge
  rw [if_neg hdne, ho]

/-- C8, witness: a well-formed candidate is discarded together with the
mismatched one. -/
theorem retrieval_empty_on_length_mismatch_witness :
    (∃ d ∈ [(⟨"good", some [(1 : ℚ), 0]⟩ : KDoc), ⟨"bad", some [(1 : ℚ), 2, 3]⟩],
      ∃ v, d.embedding = some v ∧ v ≠ [] ∧ v.length ≠ ([(1 : ℚ), 0]).length)
    ∧ findRelevantKnowledge [(1 : ℚ), 0]
        [(⟨"good", some [(1 : ℚ), 0]⟩ : KDoc), ⟨"bad", some [(1 : ℚ), 2, 3]⟩] = "" := by
  refine ⟨⟨⟨"bad", some [(1 : ℚ), 2, 3]⟩, by simp, [(1 : ℚ), 2, 3], rfl, by simp, by simp⟩, ?_⟩
  exact retrieval_empty_on_length_mismatch [(1 : ℚ), 0] _
    ⟨⟨"bad", some [(1 : ℚ), 2, 3]⟩, by simp, [(1 : ℚ), 2, 3], rfl, by simp, by simp⟩

/-- C9: `findRelevantKnowledge` assigns the sentinel similarity `-1` to
candidates whose embeddings fail to deserialize or are empty, then filters
out every entry whose similarity equals `-1`; consequently a valid candidate
whose true cosine similarity with the query is exactly `-1` (an exactly
opposite embedding) is silently dropped from ranking as though its embedding
were invalid.  Concretely, with query `[1]`, the candidate `[-1]` has a
well-defined cosine similarity of exactly `-1` but never appears in the
returned context. -/
theorem retrieval_sentinel_conflation :
    (∀ (q : List ℚ) (c : String), simOfDoc q ⟨c, none⟩ = .ok (c, -1))
    ∧ (∀ (q : List ℚ) (c : String), simOfDoc q ⟨c, some []⟩ = .ok (c, -1))
    ∧ calculateCosineSimilarity [(1 : ℚ)] [(-1 : ℚ)] = .ok (-1)
    ∧ cosineValue [(1 : ℚ)] [(-1 : ℚ)] = -1
    ∧ findRelevantKnowledge [(1 : ℚ)]
        (entriesDocs [(("opposite" : String), [(-1 : ℚ)]), (("aligned" : String), [(1 : ℚ)])])
      = "aligned" := by
  have hkeyneg : simKeyOf [(1 : ℚ)] [(-1 : ℚ)] = -1 := by
    norm_num [simKeyOf, simKey, dotQ, sqNorm, List.zipWith]
  have hkeypos : simKeyOf [(1 : ℚ)] [(1 : ℚ)] = 1 := by
    norm_num [simKeyOf, simKey, dotQ, sqNorm, List.zipWith]
  refine ⟨fun q c => rfl, fun q c => rfl, ?_, ?_, ?_⟩
  · unfold calculateCosineSimilarity
    rw [if_neg (by simp), hkeyneg]
  · have hx := (cosineValue_eq_rat_iff [(1 : ℚ)] [(-1 : ℚ)] (-1)).mpr
      (by rw [hkeyneg]; norm_num [simKey])
    rw [hx]
    norm_num
  · have hvalid : ∀ e ∈ [(("opposite" : String), [(-1 : ℚ)]), (("aligned" : String), [(1 : ℚ)])],
        e.2 ≠ [] ∧ e.2.length = ([(1 : ℚ)]).length := by simp
    rw [fRK_eval [(1 : ℚ)] [(("opposite" : String), [(-1 : ℚ)]), (("aligned" : String), [(1 : ℚ)])]
      hvalid (by simp)]
    have hkept : keptKeys [(1 : ℚ)] [(("opposite" : String), [(-1 : ℚ)]), (("aligned" : String), [(1 : ℚ)])]
        = [(("aligned" : String), (1 : ℚ))] := by
      unfold keptKeys entriesKeys
      rw [show List.map (fun e => (e.1, simKeyOf [(1 : ℚ)] e.2))
          [(("opposite" : String), [(-1 : ℚ)]), (("aligned" : String), [(1 : ℚ)])]
          = [(("opposite" : String), simKeyOf [(1 : ℚ)] [(-1 : ℚ)]),
             (("aligned" : String), simKeyOf [(1 : ℚ)] [(1 : ℚ)])] from rfl,
        hkeyneg, hkeypos]
      norm_num [List.filter_cons]
    have hpass : passingContents [(1 : ℚ)]
        [(("opposite" : String), [(-1 : ℚ)]), (("aligned" : String), [(1 : ℚ)])]
        = ["aligned"] := by
      unfold passingContents
      rw [hkept, show ([(("aligned" : String), (1 : ℚ))]).mergeSort keyGE
          = [(("aligned" : String), (1 : ℚ))] from
          List.mergeSort_of_sorted (by simp),
        show List.take 3 [(("aligned" : String), (1 : ℚ))] = [(("aligned" : String), (1 : ℚ))] from rfl,
        List.filter_cons, if_pos (by norm_num), List.filter_nil]
      rfl
    rw [hkept, hpass]
    norm_num [joinSep]

/-! ### Claim theorems: ingestion and composer (C1, C4, C10) -/

/-- C1, counterexample.  The claim states that when the embedding call fails
the document is still persisted with `processed = false` and the upload
succeeds.  In the code, a failed embedding call throws inside
`processKnowledgeDocument` (whose `generateEmbedding` wrapper re-throws),
the handler's `catch` answers 500, and nothing is persisted — the degraded
path exists only for an embedding call that *succeeds with an empty
vector*. -/
theorem upload_embed_failure_counterexample :
    uploadKnowledge ("document text") ("raw summary output") none = .rejected 500 := rfl

/-- C1, amended.  If the embedding call succeeds but returns an empty vector,
the document is persisted with `processed = false` (and no embedding) and the
upload succeeds with 201; if the embedding call throws, the whole upload
fails with 500 and nothing is persisted; an unprocessed document is never
among the retrieval candidates; and a successful non-empty embedding persists
`processed = true` with the serialized vector. -/
theorem upload_embedding_degradation (content rawSummaryText : String) :
    uploadKnowledge content rawSummaryText (some []) = .created 201 ⟨content, none, false⟩
    ∧ uploadKnowledge content rawSummaryText none = .rejected 500
    ∧ (∀ (docs : List StoredDoc) (d : StoredDoc), d.processed = false →
        ¬ d ∈ docs.filter (fun x => x.processed && x.embedding.isSome))
    ∧ (∀ (d : StoredDoc), d.processed = false → processedDocs [d] = [])
    ∧ (∀ (v : List ℚ), v ≠ [] →
        uploadKnowledge content rawSummaryText (some v) = .created 201 ⟨content, some v, true⟩) := by
  refine ⟨rfl, rfl, ?_, ?_, ?_⟩
  · intro docs d hp hmem
    have hm := (List.mem_filter.mp hmem).2
    rw [hp] at hm
    simp at hm
  · intro d hp
    unfold processedDocs
    rw [show List.filter (fun d => d.processed && d.embedding.isSome) [d] = [] by
      rw [List.filter_cons]
      rw [if_neg (by rw [hp]; simp)]
      rfl]
    rfl
  · intro v hv
    have hlen : v.length > 0 := List.length_pos.mpr hv
    show (if v.length > 0 then UploadOutcome.created 201 ⟨content, some v, true⟩
      else UploadOutcome.created 201 ⟨content, none, false⟩) = UploadOutcome.created 201 ⟨content, some v, true⟩
    rw [if_pos hlen]

/-- C1, witness for the amended theorem at concrete inputs. -/
theorem upload_embedding_degradation_witness :
    uploadKnowledge ("doc body") ("sum raw") (some []) = .created 201 ⟨"doc body", none, false⟩
    ∧ uploadKnowledge ("doc body") ("sum raw") none = .rejected 500
    ∧ processedDocs [⟨"doc body", none, false⟩] = []
    ∧ uploadKnowledge ("doc body") ("sum raw") (some [1, 0]) = .created 201 ⟨"doc body", some [1, 0], true⟩ := by
  have h := upload_embedding_degradation ("doc body") ("sum raw")
  exact ⟨h.1, h.2.1, h.2.2.2.1 _ rfl, h.2.2.2.2 [1, 0] (by simp)⟩

/-- C4: whenever the knowledge context is empty (absent or whitespace) and
the classification output cannot be parsed by any recovery tier of
`parseJson`, `generateAgentResponse` returns the static
insufficient-information refusal — never the empty string and, being a total
function of the classification output, never an exception. -/
theorem composer_refusal_on_parse_failure
    (knowledgeContext : Option String) (classifierRaw modelText : String)
    (hctx : jsTrim (knowledgeContext.getD ("")) = "")
    (hparse : parseJson classifierRaw = none) :
    generateAgentResponse knowledgeContext classifierRaw modelText = parseFailureReply
      ∧ generateAgentResponse knowledgeContext classifierRaw modelText ≠ "" := by
  have h : generateAgentResponse knowledgeContext classifierRaw modelText = parseFailureReply := by
    unfold generateAgentResponse
    rw [if_pos hctx, hparse]
  refine ⟨h, ?_⟩
  rw [h]
  decide

/-- C4, witness: an unparsable classification output with no knowledge
context yields the refusal text. -/
theorem composer_refusal_on_parse_failure_witness :
    generateAgentResponse none ("The weather is nice.") ("ignored") = parseFailureReply
      ∧ generateAgentResponse none ("The weather is nice.") ("ignored") ≠ "" :=
  composer_refusal_on_parse_failure none ("The weather is nice.") ("ignored") (by decide) (by decide)

/-- C10: with no knowledge context and a successfully parsed classification,
a `casual` category returns exactly the trimmed reply (with no emptiness
substitution, so a whitespace reply produces an empty assistant message, as
the concrete conjunct shows), while only a non-`casual` (`info_request`)
category with an empty trimmed reply is substituted by the static
insufficient-information refusal. -/
theorem composer_casual_reply_verbatim
    (knowledgeContext : Option String) (classifierRaw modelText : String)
    (category reply : String)
    (hctx : jsTrim (knowledgeContext.getD ("")) = "")
    (hparse : parseJson classifierRaw = some (category, reply)) :
    (category = "casual" →
      generateAgentResponse knowledgeContext classifierRaw modelText = jsTrim reply)
    ∧ (category ≠ "casual" → jsTrim reply = "" →
      generateAgentResponse knowledgeContext classifierRaw modelText = insufficientReply)
    ∧ generateAgentResponse none casualWhitespaceExample modelText = "" := by
  refine ⟨?_, ?_, ?_⟩
  · intro hc
    unfold generateAgentResponse
    rw [if_pos hctx, hparse]
    simp [hc]
  · intro hc hr
    unfold generateAgentResponse
    rw [if_pos hctx, hparse]
    simp [hc, hr]
  · unfold generateAgentResponse
    rw [if_pos (by decide), show parseJson casualWhitespaceExample = some ("casual", "  ")
      from by decide]
    decide

/-- C10, witness: a casual classification inherits the reply verbatim
(trimmed), and the whitespace-reply instance gives the empty message. -/
theorem composer_casual_reply_verbatim_witness :
    generateAgentResponse none casualGreetingExample ("ignored") = "hello there"
    ∧ generateAgentResponse none casualWhitespaceExample ("ignored") = "" := by
  have h := composer_casual_reply_verbatim none casualGreetingExample ("ignored")
    "casual" "hello there" (by decide) (by decide)
  exact ⟨(h.1 rfl).trans (by decide), h.2.2⟩

/-! ### Claim theorems: summarizer (C7) -/

/-- C7: the Summarizer's output parsing proceeds in four tiers — direct JSON
parse (`summaryField`), code-fence stripping then re-parse
(`summaryTierTwo`), extraction of the first brace-delimited span then
re-parse (`summaryTierThree`), and finally the heuristic summary built from
the first 800 characters of the cleaned output (`heuristicSummary`) — and
the code-fenced response of the claim yields the summary `"x"` rather than a
failure.  (The non-empty side conditions reflect that the source also treats
a parsed *empty* summary string as a failure, via `tryParseSummary(...) || ""`.) -/
theorem summarizer_four_tiers :
    (∀ raw s, summaryField raw = some s → s ≠ "" → summaryOf raw = s)
    ∧ (∀ raw s, summaryField raw = none → summaryTierTwo raw = some s → s ≠ "" →
        summaryOf raw = s)
    ∧ (∀ raw s, summaryField raw = none → summaryTierTwo raw = none →
        summaryTierThree raw = some s → s ≠ "" → summaryOf raw = s)
    ∧ (∀ raw, summaryField raw = none → summaryTierTwo raw = none →
        summaryTierThree raw = none → summaryOf raw = heuristicSummary raw)
    ∧ summaryOf fencedSummaryExample = "x" := by
  refine ⟨?_, ?_, ?_, ?_, by decide⟩
  · intro raw s h1 hs
    have ht : tryParseSummary raw = some s := by
      unfold tryParseSummary
      rw [h1]
    unfold summaryOf
    rw [ht]
    simp [hs]
  · intro raw s h1 h2 hs
    have hfs : summaryField (jsTrim (stripFences raw)) = some s := h2
    by_cases heq : jsTrim (stripFences raw) = raw
    · rw [heq] at hfs
      rw [h1] at hfs
      cases hfs
    · have ht : tryParseSummary raw = some s := by
        unfold tryParseSummary
        rw [h1]
        simp only []
        rw [if_pos heq, hfs]
      unfold summaryOf
      rw [ht]
      simp [hs]
  · intro raw s h1 h2 h3 hs
    have ht : tryParseSummary raw = some s := by
      unfold tryParseSummary
      rw [h1]
      simp only []
      have hguard : (if jsTrim (stripFences raw) ≠ raw
          then summaryField (jsTrim (stripFences raw)) else none) = none := by
        by_cases heq : jsTrim (stripFences raw) = raw
        · rw [if_neg (by simpa using heq)]
        · rw [if_pos heq]
          exact h2
      rw [hguard]
      exact h3
    unfold summaryOf
    rw [ht]
    simp [hs]
  · intro raw h1 h2 h3
    have ht : tryParseSummary raw = none := by
      unfold tryParseSummary
      rw [h1]
      simp only []
      have hguard : (if jsTrim (stripFences raw) ≠ raw
          then summaryField (jsTrim (stripFences raw)) else none) = none := by
        by_cases heq : jsTrim (stripFences raw) = raw
        · rw [if_neg (by simpa using heq)]
        · rw [if_pos heq]
          exact h2
      rw [hguard]
      exact h3
    unfold summaryOf
    rw [ht]

/-- C7, witness: on the fenced example, tier 1 fails, tier 2 strips the
fences and recovers the summary `"x"`. -/
theorem summarizer_four_tiers_witness :
    summaryField fencedSummaryExample = none
    ∧ summaryTierTwo fencedSummaryExample = some "x"
    ∧ summaryOf fencedSummaryExample = "x" :=
  ⟨by decide, by decide,
    summarizer_four_tiers.2.1 fencedSummaryExample "x" (by decide) (by decide) (by decide)⟩

/-! ### Claim theorems: tool SSRF gate and ask short-circuit (C5, C6) -/

/-- C5, counterexample.  The SSRF guard is the textual prefix regex
`/^https?:\/\/(localhost|127\.0\.0\.1|::1)/i`.  The WHATWG serialization of
a URL whose host is the IPv6 loopback `::1` writes the host in brackets —
`http://[::1]/...` — which the regex does not match, so a POST tool endpoint
addressed to the `::1` loopback (used verbatim, no URL construction) is
*not* rejected and both call sites perform the outbound call even without
the `ALLOW_INTERNAL_TOOL_CALLS` override, contradicting the claim. -/
theorem ssrf_loopback_counterexample :
    isBlockedUrl ("http://[::1]/admin") = false
    ∧ executeToolRoute idUrlClass ⟨"t1", "probe", "POST", "http://[::1]/admin", [], []⟩ [] false
        = .call ⟨"http://[::1]/admin", "POST", some []⟩
    ∧ chatToolDecision idUrlClass [⟨"t1", "probe", "POST", "http://[::1]/admin", [], []⟩]
        (parsedDecision ("\x7b\"action\":\"call\",\"toolId\":\"t1\",\"params\":\x7b\x7d\x7d")) false
        = .callTool ("probe") ⟨"http://[::1]/admin", "POST", some []⟩ :=
  ⟨by decide, rfl, rfl⟩

/-- C5, amended.  The gate is a case-insensitive textual prefix test
(`isBlockedUrl`) on the URL string about to be fetched — for POST the
endpoint as configured, for GET the serialization produced by the platform
URL class (`toolGetUrl`, an external primitive taken as a parameter).
Whenever that string starts with `http(s)://localhost`,
`http(s)://127.0.0.1` or `http(s)://::1`, the execute route rejects the
request (400) and the chat call site skips the tool, unless the
`ALLOW_INTERNAL_TOOL_CALLS` override is set, in which case the call
proceeds.  A GET endpoint the URL class cannot parse makes the construction
throw, so both sites fail with 500 *before* the gate and perform no fetch.
(The bracketed IPv6 serialization `http://[::1]/...` of the `::1` loopback
does not match the prefix test and is not blocked, see the
counterexample.) -/
theorem ssrf_textual_prefix_gate
    (urlCls : UrlClass) (tool : Tool) (params : List (String × Json)) :
    (upperAscii tool.method = "POST" → isBlockedUrl tool.endpoint = true →
      executeToolRoute urlCls tool params false = .blocked
      ∧ executeToolRoute urlCls tool params true = .call ⟨tool.endpoint, "POST", some params⟩)
    ∧ (∀ url : String, upperAscii tool.method = "GET" →
      toolGetUrl urlCls tool.endpoint (execParamPairs params) = Except.ok url →
      (isBlockedUrl url = true → executeToolRoute urlCls tool params false = .blocked)
      ∧ executeToolRoute urlCls tool params true = .call ⟨url, "GET", none⟩)
    ∧ (∀ e : String, upperAscii tool.method = "GET" →
      toolGetUrl urlCls tool.endpoint (execParamPairs params) = Except.error e →
      executeToolRoute urlCls tool params false = .thrown
      ∧ executeToolRoute urlCls tool params true = .thrown)
    ∧ (∀ (tools : List Tool) (d : Json),
      d.getStr "action" = some "call" →
      findTool tools (d.getStr "toolId") = some tool →
      ((upperAscii tool.method = "POST" → isBlockedUrl tool.endpoint = true →
          chatToolDecision urlCls tools (some d) false = .skippedInternal tool.name)
        ∧ (∀ url : String, upperAscii tool.method = "GET" →
            toolGetUrl urlCls tool.endpoint (chatParamPairs d) = Except.ok url →
            isBlockedUrl url = true →
            chatToolDecision urlCls tools (some d) false = .skippedInternal tool.name)
        ∧ (∀ e : String, upperAscii tool.method = "GET" →
            toolGetUrl urlCls tool.endpoint (chatParamPairs d) = Except.error e →
            chatToolDecision urlCls tools (some d) false = .turnFailed))) := by
  refine ⟨?_, ?_, ?_, ?_⟩
  · intro hup hblock
    exact ⟨by simp [executeToolRoute, hup, hblock], by simp [executeToolRoute, hup, hblock]⟩
  · intro url hget hok
    refine ⟨fun hblock => ?_, ?_⟩
    · simp [executeToolRoute, hget, hok, hblock]
    · simp [executeToolRoute, hget, hok]
  · intro e hget herr
    exact ⟨by simp [executeToolRoute, hget, herr], by simp [executeToolRoute, hget, herr]⟩
  · intro tools d ha hf
    refine ⟨fun hup hblock => ?_, fun url hget hok hblock => ?_, fun e hget herr => ?_⟩
    · simp [chatToolDecision, ha, hf, hup, hblock]
    · simp [chatToolDecision, ha, hf, hget, hok, hblock]
    · simp [chatToolDecision, ha, hf, hget, herr]

/-- C5, witness for the amended theorem: a POST tool aimed at
`http://127.0.0.1/hook` is blocked without the override and proceeds with
it; a GET tool configured as `http://127.1/wx` — which the prefix test
would *not* match as written — is blocked because the gate receives the
WHATWG-normalized serialization `http://127.0.0.1/wx?city=Paris`; and a
GET tool configured as `http://::1/x` makes the URL construction throw, so
the request fails with 500 before the gate. -/
theorem ssrf_textual_prefix_gate_witness :
    executeToolRoute idUrlClass ⟨"t2", "local", "POST", "http://127.0.0.1/hook", [], []⟩ [] false
      = .blocked
    ∧ executeToolRoute idUrlClass ⟨"t2", "local", "POST", "http://127.0.0.1/hook", [], []⟩ [] true
      = .call ⟨"http://127.0.0.1/hook", "POST", some []⟩
    ∧ executeToolRoute normalizingUrlClass ⟨"t3", "wx", "GET", "http://127.1/wx", [], []⟩
        [("city", Json.str ("Paris"))] false = .blocked
    ∧ executeToolRoute throwingUrlClass ⟨"t4", "probe6", "GET", "http://::1/x", [], []⟩ [] false
      = .thrown := by
  have h2 := ssrf_textual_prefix_gate idUrlClass
    ⟨"t2", "local", "POST", "http://127.0.0.1/hook", [], []⟩ []
  have h3 := ssrf_textual_prefix_gate normalizingUrlClass
    ⟨"t3", "wx", "GET", "http://127.1/wx", [], []⟩ [("city", Json.str ("Paris"))]
  have h4 := ssrf_textual_prefix_gate throwingUrlClass
    ⟨"t4", "probe6", "GET", "http://::1/x", [], []⟩ []
  refine ⟨(h2.1 rfl (by decide)).1, (h2.1 rfl (by decide)).2, ?_, ?_⟩
  · exact (h3.2.1 ("http://127.0.0.1/wx?city=Paris") rfl rfl).1 (by decide)
  · exact (h4.2.2.1 ("Invalid URL") rfl rfl).1

theorem listPrefixB_append (p t : List Char) : listPrefixB p (p ++ t) = true := by
  induction p with
  | nil => rfl
  | cons c cs ih => simp [listPrefixB, ih]

theorem strContainsAux_at (sub pre rest : List Char) (h : listPrefixB sub rest = true) :
    strContainsAux sub (pre ++ rest) = true := by
  induction pre with
  | nil =>
    cases rest with
    | nil => simpa [strContainsAux] using h
    | cons c cs => simp [strContainsAux, h]
  | cons c cs ih => simp [strContainsAux, ih]

theorem strContains_of_infix (s sub : String) (h : List.IsInfix sub.data s.data) :
    strContains s sub = true := by
  obtain ⟨pre, post, hsp⟩ := h
  unfold strContains
  rw [← hsp, List.append_assoc]
  exact strContainsAux_at _ _ _ (listPrefixB_append _ _)

theorem mem_joinSep_infix (sep : String) (l : List String) (x : String) (hx : x ∈ l) :
    List.IsInfix x.data (joinSep sep l).data := by
  induction l with
  | nil => cases hx
  | cons a rest ih =>
    rcases List.mem_cons.mp hx with rfl | hmem
    · cases rest with
      | nil => exact List.infix_rfl
      | cons b rs =>
        rw [show joinSep sep (x :: b :: rs) = x ++ sep ++ joinSep sep (b :: rs) from rfl,
          String.data_append, String.data_append]
        exact ⟨[], sep.data ++ (joinSep sep (b :: rs)).data, by simp⟩
    · cases rest with
      | nil => cases hmem
      | cons b rs =>
        obtain ⟨s1, t1, hst⟩ := ih hmem
        rw [show joinSep sep (a :: b :: rs) = a ++ sep ++ joinSep sep (b :: rs) from rfl,
          String.data_append, String.data_append]
        exact ⟨(a.data ++ sep.data) ++ s1, t1, by rw [← hst]; simp⟩

/-- C6: when the Tool Planner's parsed decision is action `ask` with a
`toolId` matching one of the agent's tools, the chat turn returns the
synthesised clarification (which names the tool and, as the last conjunct
shows, contains each missing parameter name, with descriptions attached
through `clarificationOf` when the names match declared parameters), and the
Tool Executor's outbound HTTP call is never performed for that turn.  The
statement holds for every URL class `urlCls`: the ask branch returns before
any URL construction, so the turn does not depend on it. -/
theorem chat_ask_short_circuit
    (urlCls : UrlClass) (tools : List Tool) (d : Json) (tool : Tool) (allowInternal : Bool)
    (ha : d.getStr "action" = some "ask")
    (hf : findTool tools (d.getStr "toolId") = some tool) :
    chatToolDecision urlCls tools (some d) allowInternal
      = .clarify (clarificationOf tool (missingRawOf d))
    ∧ performedCall (chatToolDecision urlCls tools (some d) allowInternal) = none
    ∧ (∀ s, Json.str s ∈ missingRawOf d →
        strContains (clarificationOf tool (missingRawOf d)) s = true) := by
  have hmain : chatToolDecision urlCls tools (some d) allowInternal
      = .clarify (clarificationOf tool (missingRawOf d)) := by
    simp [chatToolDecision, ha, hf]
  refine ⟨hmain, by rw [hmain]; rfl, ?_⟩
  intro s hs
  apply strContains_of_infix
  have h1 : List.IsInfix s.data (("\"" ++ s ++ "\"") : String).data := by
    rw [String.data_append, String.data_append]
    exact ⟨("\"" : String).data, ("\"" : String).data, by simp⟩
  have hquoted_mem : (("\"" ++ s ++ "\"") : String)
      ∈ (missingRawOf d).map (fun m => "\"" ++ jsToDisplay m ++ "\"") :=
    List.mem_map.mpr ⟨Json.str s, hs, rfl⟩
  have h2 := mem_joinSep_infix (", ")
    ((missingRawOf d).map (fun m => "\"" ++ jsToDisplay m ++ "\"")) _ hquoted_mem
  have h3 : List.IsInfix
      (joinSep (", ") ((missingRawOf d).map (fun m => "\"" ++ jsToDisplay m ++ "\""))).data
      (clarificationOf tool (missingRawOf d)).data := by
    have hdata : (clarificationOf tool (missingRawOf d)).data
        = ("I can use the tool \"" ++ tool.name ++ "\" to help, but I still need: ").data
          ++ (joinSep (", ") ((missingRawOf d).map (fun m => "\"" ++ jsToDisplay m ++ "\""))).data
          ++ ("."
            ++ (if ((tool.parameters.filter
                  (fun p => (missingRawOf d).any (fun m => m == Json.str p.name))).length ≠ 0) then
                  "\n" ++ joinSep ("\n") ((tool.parameters.filter
                    (fun p => (missingRawOf d).any (fun m => m == Json.str p.name))).map (fun p =>
                      "- " ++ p.name ++ (if p.required then " (required)" else "")
                        ++ ": " ++ p.description.getD ("")))
                else "")
            ++ "\nPlease provide the missing value"
            ++ (if (missingRawOf d).length > 1 then "s" else "") ++ ".").data := by
      simp [clarificationOf, String.data_append, List.append_assoc]
    exact ⟨_, _, hdata.symm⟩
  exact (h1.trans h2).trans h3

/-- C6, witness: the planner output
`{"action":"ask","toolId":"t1","missing":["city"]}` against a tool with a
required `city` parameter short-circuits to a clarification mentioning
`city` and performs no outbound call — even under `throwingUrlClass`, whose
URL construction would fail, because the ask branch never reaches it. -/
theorem chat_ask_short_circuit_witness :
    chatToolDecision throwingUrlClass [weatherTool] (parsedDecision askDecisionExample) false
      = .clarify ("I can use the tool \"weather\" to help, but I still need: \"city\".\n- city (required): City name\nPlease provide the missing value.")
    ∧ performedCall (chatToolDecision throwingUrlClass [weatherTool]
        (parsedDecision askDecisionExample) false) = none
    ∧ strContains ("I can use the tool \"weather\" to help, but I still need: \"city\".\n- city (required): City name\nPlease provide the missing value.") ("city") = true := by
  have hp : parsedDecision askDecisionExample
      = some (Json.obj [("action", Json.str "ask"), ("toolId", Json.str "t1"),
          ("missing", Json.arr [Json.str "city"])]) := rfl
  have h := chat_ask_short_circuit throwingUrlClass [weatherTool]
    (Json.obj [("action", Json.str "ask"), ("toolId", Json.str "t1"),
      ("missing", Json.arr [Json.str "city"])]) weatherTool false rfl rfl
  refine ⟨?_, ?_, by decide⟩
  · rw [hp, h.1]
    rfl
  · rw [hp]
    exact h.2.1
